import Mathlib

/-!
Verification of the task-tracker core of this repository (file
pages/task-tracker.js): date expansion (generateTaskDates), the per-day view
and aggregation (displayTasksForDate, updateStatistics), task creation
(handleCreateTask), and the localStorage persistence pair
(saveTasks, loadTasks).

The embedding models the ECMAScript Date runtime explicitly.  A JavaScript
Date is a timestamp; here we count minutes since the proleptic Gregorian day
0000-03-01 (an isomorphic shift of the Unix-epoch millisecond count, which
only moves the zero point and divides by the constant 60000).  The
environment timezone is a fixed offset tz in minutes, local time = UTC time
+ tz; this covers every fixed-offset runtime, and none of the claims
straddle a DST transition.  Key platform semantics that the model follows:

* a date-only string such as "2026-02-20" parses to UTC midnight
  (ECMA-262 Date.parse on date-only forms);
* toISOString renders the UTC calendar day, and its date part is the
  YYYY-MM-DD string of floor(t / dayLength);
* getDate, getFullYear, getMonth, setDate and the
  new Date(year, month, day) constructor operate on LOCAL time
  (ECMA-262 LocalTime, MakeDay, and the two-digit-year adjustment of the
  Date constructor);
* Euclidean division on Int coincides with floor division for the positive
  divisors used here, so / and % on Int model the floor operations of the
  ECMA specification exactly.

Calendar dates are `Civil` triples, the components of a YYYY-MM-DD string
(supported range: years 1 to 9999, the range the YYYY-MM-DD format covers).
The civil/day-number conversions are standard Gregorian calendar algorithms
corresponding to MakeDay / YearFromTime / MonthFromTime / DateFromTime of
ECMA-262; both composition directions are proved to be the identity below,
which certifies them against each other.

The localStorage layer stores, in the model, either the well-formed JSON
value written by JSON.stringify or an arbitrary malformed string; the law
JSON.parse(JSON.stringify v) = v for JSON-safe values is a platform
guarantee, so the store holds the JsValue itself and JSON.parse is modelled
as the function that returns the stored value or fails on a malformed
store.
-/

set_option maxHeartbeats 1600000

/-- Calendar date, the components of a YYYY-MM-DD string. -/
structure Civil where
  y : Nat
  m : Nat
  d : Nat
deriving DecidableEq

/-- Gregorian leap-year test (ECMA-262 InLeapYear). -/
def isLeap (y : Nat) : Bool :=
  (y % 4 == 0 && y % 100 != 0) || y % 400 == 0

/-- Number of days in a calendar month (month is 1-based). -/
def daysInMonth (y m : Nat) : Nat :=
  if m = 2 then (if isLeap y then 29 else 28)
  else if m = 4 ∨ m = 6 ∨ m = 9 ∨ m = 11 then 30
  else 31

/-- Day number (days since 0000-03-01) of a civil date: the standard
days-from-civil Gregorian formula over the March-shifted year. -/
def civilToDay (y m d : Nat) : Nat :=
  let ys := if m ≤ 2 then y - 1 else y
  let ms := if m ≤ 2 then m + 9 else m - 3
  365 * ys + ys / 4 - ys / 100 + ys / 400 + (153 * ms + 2) / 5 + (d - 1)

/-- Civil date of a day number: the standard civil-from-days Gregorian
algorithm, decomposing the day of a 400-year era into century, 4-year block
and year (with the usual caps on the last, longer units). -/
def dayToCivil (n : Nat) : Civil :=
  let era := n / 146097
  let doe := n % 146097
  let cen := min 3 (doe / 36524)
  let doc := doe - 36524 * cen
  let quad := doc / 1461
  let doq := doc % 1461
  let yq := min 3 (doq / 365)
  let yoe := 100 * cen + 4 * quad + yq
  let doy := doq - 365 * yq
  let mp := (5 * doy + 2) / 153
  let dd := doy - (153 * mp + 2) / 5 + 1
  let mm := if mp < 10 then mp + 3 else mp - 9
  let yy := if mp < 10 then era * 400 + yoe else era * 400 + yoe + 1
  ⟨yy, mm, dd⟩

/-- Validity of a civil date in the supported YYYY-MM-DD range. -/
def validCivil (c : Civil) : Prop :=
  1 ≤ c.y ∧ c.y ≤ 9999 ∧ 1 ≤ c.m ∧ c.m ≤ 12 ∧ 1 ≤ c.d ∧ c.d ≤ daysInMonth c.y c.m

instance (c : Civil) : Decidable (validCivil c) := by
  unfold validCivil
  infer_instance

/-- Two-digit zero padding, as used by toISOString for months and days. -/
def pad2 (n : Nat) : String :=
  if n < 10 then "0" ++ toString n else toString n

/-- Four-digit zero padding, as used by toISOString for years up to 9999. -/
def pad4 (n : Nat) : String :=
  if n < 10 then "000" ++ toString n
  else if n < 100 then "00" ++ toString n
  else if n < 1000 then "0" ++ toString n
  else toString n

/-- The YYYY-MM-DD string of a civil date. -/
def civilToStr (c : Civil) : String :=
  pad4 c.y ++ "-" ++ pad2 c.m ++ "-" ++ pad2 c.d

/-- The YYYY-MM-DD string of a day number. -/
def dayToStr (n : Nat) : String :=
  civilToStr (dayToCivil n)

/-- Timestamp of new Date("YYYY-MM-DD"): UTC midnight of the given civil
date, in minutes. -/
def utcMidnight (c : Civil) : Int :=
  (civilToDay c.y c.m c.d : Int) * 1440

/-- Date part of toISOString: the YYYY-MM-DD string of the UTC calendar day
holding the timestamp. -/
def toISODateStr (t : Int) : String :=
  dayToStr (t / 1440).toNat

/-- The LOCAL calendar day holding a timestamp, under timezone offset tz. -/
def jsLocalDay (tz t : Int) : Nat :=
  ((t + tz) / 1440).toNat

/-- The LOCAL civil date of a timestamp (ECMA-262 YearFromTime,
MonthFromTime, DateFromTime applied to LocalTime). -/
def jsLocalCivil (tz t : Int) : Civil :=
  dayToCivil (jsLocalDay tz t)

/-- Date.prototype.getDate: local day-of-month. -/
def jsGetDate (tz t : Int) : Nat :=
  (jsLocalCivil tz t).d

/-- Date.prototype.getFullYear: local year. -/
def jsGetFullYear (tz t : Int) : Nat :=
  (jsLocalCivil tz t).y

/-- Date.prototype.getMonth: local month, 0-based as in JavaScript. -/
def jsGetMonth0 (tz t : Int) : Nat :=
  (jsLocalCivil tz t).m - 1

/-- Date.prototype.setDate n: keeps the local year, month and time of day
and sets the local day-of-month to n, normalising overflow (ECMA-262
MakeDay is affine in the day argument). Returns the new timestamp. -/
def jsSetDate (tz t n : Int) : Int :=
  ((civilToDay (jsLocalCivil tz t).y (jsLocalCivil tz t).m 1 : Int) + (n - 1)) * 1440 +
    (t + tz) % 1440 - tz

/-- Timestamp of new Date(y, m, d) with m 0-based: local midnight of the
normalised civil date, including the two-digit-year adjustment of the Date
constructor (years 0 to 99 map to 1900 to 1999). -/
def jsMakeDate (tz y m d : Int) : Int :=
  let yr := if 0 ≤ y ∧ y ≤ 99 then y + 1900 else y
  let ym := yr + m / 12
  let mn := (m % 12).toNat
  ((civilToDay ym.toNat (mn + 1) 1 : Int) + (d - 1)) * 1440 - tz

/-- Fuel-bounded unfolding of the while loop in the custom branch of
generateTaskDates: while (current <= end) push the ISO date of current and
advance current by setDate(getDate() + 1). The supplied fuel provably
exceeds the number of iterations. -/
def customGo (tz endT : Int) : Nat → Int → List String
  | 0, _ => []
  | fuel + 1, cur =>
    if cur ≤ endT then
      toISODateStr cur :: customGo tz endT fuel (jsSetDate tz cur ((jsGetDate tz cur : Int) + 1))
    else []

/-- Model of generateTaskDates(period, startDate, endDate) from
pages/task-tracker.js, lines 139 to 171, parameterised by the runtime
timezone offset tz (minutes, local = UTC + tz). Date strings from the form
are represented by their civil components; an absent or empty endDate is
none. The returned list holds the YYYY-MM-DD strings the code pushes. -/
def generateTaskDates (tz : Int) (period : String) (startDate : Civil)
    (endDate : Option Civil) : List String :=
  let start : Int := utcMidnight startDate
  if period = "day" then
    [civilToStr startDate]
  else if period = "week" then
    (List.range 7).map (fun (i : Nat) =>
      toISODateStr (jsSetDate tz start ((jsGetDate tz start : Int) + (i : Int))))
  else if period = "month" then
    let year := jsGetFullYear tz start
    let month := jsGetMonth0 tz start
    let daysInM := jsGetDate tz (jsMakeDate tz (year : Int) ((month : Int) + 1) 0)
    (List.range' (jsGetDate tz start) (daysInM + 1 - jsGetDate tz start)).map
      (fun day => toISODateStr (jsMakeDate tz (year : Int) (month : Int) (day : Int)))
  else if period = "custom" then
    match endDate with
    | some e => customGo tz (utcMidnight e) (((utcMidnight e - start) / 1440).toNat + 2) start
    | none => []
  else []

/-- The canonical sequence of n consecutive calendar dates starting at s:
day numbers civilToDay s, +1, ..., rendered as YYYY-MM-DD strings. This is
the specification-side meaning of a contiguous, ascending, one-entry-per-day
date range. -/
def consecutiveDates (s : Civil) (n : Nat) : List String :=
  (List.range n).map (fun i => dayToStr (civilToDay s.y s.m s.d + i))

namespace TaskTracker

/-- Task record as created by handleCreateTask, lines 110 to 120 of
pages/task-tracker.js, fields in insertion order. -/
structure Task where
  id : Int
  name : String
  category : String
  period : String
  startDate : String
  endDate : String
  status : String
  createdAt : String
  dates : List String
deriving DecidableEq

/-- JSON value, the shape JSON.parse returns and JSON.stringify consumes. -/
inductive JsValue where
  | jnull
  | jbool (b : Bool)
  | num (n : Int)
  | str (s : String)
  | arr (elems : List JsValue)
  | obj (fields : List (String × JsValue))

/-- Content of the localStorage slot: either the serialisation of a JSON
value (every well-formed stored string is the serialisation of exactly one
value, and JSON.parse of JSON.stringify returns that value, a platform
guarantee), or a malformed string on which JSON.parse throws. -/
inductive StoreContent where
  | wellFormed (v : JsValue)
  | malformed (s : String)

/-- The JSON object JSON.stringify produces for one task record: the nine
fields in insertion order, strings as strings, the id as a number and the
dates array as an array of strings. -/
def taskToJs (t : Task) : JsValue :=
  JsValue.obj [("id", JsValue.num t.id), ("name", JsValue.str t.name),
    ("category", JsValue.str t.category), ("period", JsValue.str t.period),
    ("startDate", JsValue.str t.startDate), ("endDate", JsValue.str t.endDate),
    ("status", JsValue.str t.status), ("createdAt", JsValue.str t.createdAt),
    ("dates", JsValue.arr (t.dates.map JsValue.str))]

/-- Model of saveTasks, lines 316 to 322: localStorage.setItem("tasks",
JSON.stringify(this.tasks)) replaces the whole slot with the serialisation
of the entire collection. -/
def saveTasks (tasks : List Task) (_store : Option StoreContent) : Option StoreContent :=
  some (StoreContent.wellFormed (JsValue.arr (tasks.map taskToJs)))

/-- The try-block of loadTasks, lines 327 to 335: getItem returns null for
an absent slot (the code then takes the empty-array branch), JSON.parse
returns the stored value for a well-formed slot and throws on a malformed
one. -/
def loadTasksE : Option StoreContent → Except String JsValue
  | none => Except.ok (JsValue.arr [])
  | some (StoreContent.wellFormed v) => Except.ok v
  | some (StoreContent.malformed s) =>
    Except.error ("SyntaxError: unexpected token in JSON: " ++ s)

/-- Model of loadTasks, lines 327 to 335: the catch handler maps any thrown
error to the empty collection, so the function is total and never
propagates a failure. -/
def loadTasks (store : Option StoreContent) : JsValue :=
  match loadTasksE store with
  | Except.ok v => v
  | Except.error _ => JsValue.arr []

/-- Reads back a JSON array of strings; inverse of the dates encoding. -/
def strsFromJs : List JsValue → Option (List String)
  | [] => some []
  | JsValue.str s :: rest => (strsFromJs rest).map (fun l => s :: l)
  | _ => none

/-- Reads back one task record from its JSON object: used to state that the
persistence round trip preserves every field of every record. -/
def jsToTask : JsValue → Option Task
  | JsValue.obj [(k1, JsValue.num i), (k2, JsValue.str nm), (k3, JsValue.str cat),
      (k4, JsValue.str per), (k5, JsValue.str sd), (k6, JsValue.str ed),
      (k7, JsValue.str st), (k8, JsValue.str ca), (k9, JsValue.arr ds)] =>
    if k1 = "id" ∧ k2 = "name" ∧ k3 = "category" ∧ k4 = "period" ∧ k5 = "startDate" ∧
        k6 = "endDate" ∧ k7 = "status" ∧ k8 = "createdAt" ∧ k9 = "dates" then
      (strsFromJs ds).map (fun l => ⟨i, nm, cat, per, sd, ed, st, ca, l⟩)
    else none
  | _ => none

/-- Reads back a list of task records, one JSON object per record. -/
def tasksFromJs : List JsValue → Option (List Task)
  | [] => some []
  | v :: rest =>
    match jsToTask v, tasksFromJs rest with
    | some t, some ts => some (t :: ts)
    | _, _ => none

/-- Reads back the whole stored collection: a JSON array of task objects. -/
def jsToTasks : JsValue → Option (List Task)
  | JsValue.arr l => tasksFromJs l
  | _ => none

/-- The values of the create-task form: name, category and period selects
(empty string when unset), and the two date inputs (a date input holds
either a valid calendar date or the empty string, modelled as none). -/
structure FormInput where
  taskName : String
  category : String
  period : String
  startDate : Option Civil
  endDate : Option Civil

/-- The state handleCreateTask touches: the in-memory task collection and
the persisted localStorage slot. -/
structure Tracker where
  tasks : List Task
  store : Option StoreContent

/-- String.prototype.trim: strip whitespace from both ends. -/
def jsTrim (s : String) : String :=
  String.mk (((s.data.dropWhile Char.isWhitespace).reverse.dropWhile Char.isWhitespace).reverse)

/-- The comparison new Date(endDate) < new Date(startDate) of line 104: a
comparison of UTC midnights; with an absent operand the JavaScript
comparison on an invalid date is false. -/
def dateLtB : Option Civil → Option Civil → Bool
  | some a, some b => decide (utcMidnight a < utcMidnight b)
  | _, _ => false

/-- Model of handleCreateTask, lines 81 to 134 of pages/task-tracker.js:
the three sequential validations (missing required field, missing custom
end date, inverted custom range) each set the form error and return with
the state untouched; otherwise the task record is built (id from
Date.now(), createdAt from the clock, dates from the Date Expander), pushed
onto the collection, and the collection is saved. The second component is
the form error text, none on success. DOM rendering calls are outside the
state model. -/
def handleCreateTask (tz now : Int) (nowIso : String) (form : FormInput) (tr : Tracker) :
    Tracker × Option String :=
  let taskName := jsTrim form.taskName
  if taskName = "" ∨ form.category = "" ∨ form.period = "" ∨ form.startDate = none then
    (tr, some "Please fill in all required fields.")
  else if form.period = "custom" ∧ form.endDate = none then
    (tr, some "Please select an end date for custom range.")
  else if form.period = "custom" ∧ dateLtB form.endDate form.startDate = true then
    (tr, some "End date must be after start date.")
  else
    let s := form.startDate.getD ⟨1970, 1, 1⟩
    let task : Task :=
      { id := now, name := taskName, category := form.category, period := form.period,
        startDate := civilToStr s,
        endDate := civilToStr (form.endDate.getD s),
        status := "Assigned", createdAt := nowIso,
        dates := generateTaskDates tz form.period s form.endDate }
    let tasks2 := tr.tasks ++ [task]
    ({ tasks := tasks2, store := saveTasks tasks2 tr.store }, none)

/-- The visible subset: the filter this.tasks.filter(task =>
task.dates.includes(currentDateStr)) used by displayTasksForDate (lines
204 to 206) and updateStatistics (lines 277 to 279). -/
def tasksForDate (tasks : List Task) (currentDateStr : String) : List Task :=
  tasks.filter (fun t => t.dates.contains currentDateStr)

/-- The four counters updateStatistics writes to the page. -/
structure Stats where
  total : Nat
  assigned : Nat
  inProgress : Nat
  completed : Nat

/-- Model of updateStatistics, lines 275 to 290: the visible subset for the
reference date, its size, and the three per-status counts. -/
def updateStatistics (tasks : List Task) (currentDateStr : String) : Stats :=
  let ts := tasksForDate tasks currentDateStr
  { total := ts.length,
    assigned := (ts.filter (fun t => t.status == "Assigned")).length,
    inProgress := (ts.filter (fun t => t.status == "In-progress")).length,
    completed := (ts.filter (fun t => t.status == "Completed")).length }

end TaskTracker

/-- Decomposition facts for the civil-from-days algorithm: the year-of-era
and day-of-year pieces recombine to the day-of-era. -/
theorem pieces_of_doe (doe cen doc quad doq yq yoe doy : Nat) (h : doe ≤ 146096)
    (hcen : cen = min 3 (doe / 36524)) (hdoc : doc = doe - 36524 * cen)
    (hquad : quad = doc / 1461) (hdoq : doq = doc % 1461)
    (hyq : yq = min 3 (doq / 365)) (hyoe : yoe = 100 * cen + 4 * quad + yq)
    (hdoy : doy = doq - 365 * yq) :
    yoe ≤ 399 ∧ doy ≤ 365 ∧ 365 * yoe + yoe / 4 - yoe / 100 + doy = doe := by
  have h1 : cen ≤ 3 ∧ 36524 * cen ≤ doe ∧ doc ≤ 36524 := by omega
  have h2 : quad ≤ 24 ∧ doc = 1461 * quad + doq ∧ doq ≤ 1460 := by omega
  have h3 : yq ≤ 3 ∧ 365 * yq ≤ doq ∧ doy ≤ 365 ∧ doq = 365 * yq + doy := by omega
  have h4 : yoe / 4 = 25 * cen + quad := by omega
  have h5 : yoe / 100 = cen := by omega
  omega

/-- The 400-year era splits off linearly from the year formula. -/
theorem era_split (era yoe : Nat) (h : yoe ≤ 399) :
    365 * (era * 400 + yoe) + (era * 400 + yoe) / 4 - (era * 400 + yoe) / 100 +
      (era * 400 + yoe) / 400 =
    146097 * era + (365 * yoe + yoe / 4 - yoe / 100) := by
  omega

/-- Month and day-of-month extracted from a day-of-year are in range and
recombine to it. -/
theorem month_of_doy (doy mp dd : Nat) (h : doy ≤ 365)
    (hmp : mp = (5 * doy + 2) / 153) (hdd : dd = doy - (153 * mp + 2) / 5 + 1) :
    mp ≤ 11 ∧ 1 ≤ dd ∧ dd ≤ 31 ∧ (153 * mp + 2) / 5 + (dd - 1) = doy := by
  omega

/-- A day-of-year built from a shifted month and an in-range day-of-month
recovers both. -/
theorem doy_of_month (ms d doy : Nat) (hms : ms ≤ 11) (hd1 : 1 ≤ d)
    (hdoy : doy = (153 * ms + 2) / 5 + (d - 1))
    (hnext : doy < (153 * (ms + 1) + 2) / 5) (hub : doy ≤ 365) :
    (5 * doy + 2) / 153 = ms ∧ doy - (153 * ms + 2) / 5 + 1 = d := by
  omega

/-- A day-of-era built from a year-of-era and a consistent day-of-year
recovers both through the century, 4-year-block and year decomposition. -/
theorem recover_yoe (yoe doy doe : Nat) (hyoe : yoe ≤ 399) (hub : doy ≤ 365)
    (hleap : doy = 365 → (yoe % 4 = 3 ∧ yoe % 100 ≠ 99) ∨ yoe = 399)
    (hdoe : doe = 365 * yoe + yoe / 4 - yoe / 100 + doy) :
    doe ≤ 146096 ∧
    100 * min 3 (doe / 36524) + 4 * ((doe - 36524 * min 3 (doe / 36524)) / 1461) +
      min 3 ((doe - 36524 * min 3 (doe / 36524)) % 1461 / 365) = yoe ∧
    (doe - 36524 * min 3 (doe / 36524)) % 1461 -
      365 * min 3 ((doe - 36524 * min 3 (doe / 36524)) % 1461 / 365) = doy := by
  obtain ⟨c, r, hcr, hr, hc⟩ : ∃ c r, yoe = 100 * c + r ∧ r ≤ 99 ∧ c ≤ 3 :=
    ⟨yoe / 100, yoe % 100, by omega, by omega, by omega⟩
  obtain ⟨s, u, hsu, hu, hs⟩ : ∃ s u, r = 4 * s + u ∧ u ≤ 3 ∧ s ≤ 24 :=
    ⟨r / 4, r % 4, by omega, by omega, by omega⟩
  have e4 : yoe / 4 = 25 * c + s := by omega
  have e100 : yoe / 100 = c := by omega
  have hdoe2 : doe = 36524 * c + 1461 * s + 365 * u + doy := by omega
  have hu3 : doy = 365 → u = 3 := by omega
  have hbound : 365 * u + doy ≤ 1460 := by omega
  have hrest : 1461 * s + 365 * u + doy ≤ 36524 := by omega
  have hcap : c ≤ 2 → 1461 * s + 365 * u + doy ≤ 36523 := by omega
  have hcen : min 3 (doe / 36524) = c := by omega
  rw [hcen]
  have hdoc : doe - 36524 * c = 1461 * s + 365 * u + doy := by omega
  rw [hdoc]
  have hquad : (1461 * s + 365 * u + doy) / 1461 = s := by omega
  have hdoq : (1461 * s + 365 * u + doy) % 1461 = 365 * u + doy := by omega
  rw [hquad, hdoq]
  have hyq : min 3 ((365 * u + doy) / 365) = u := by omega
  rw [hyq]
  omega

/-- Left inverse: the civil components of a day number map back to that day
number, with the extracted month and day-of-month in range. -/
theorem civilToDay_dayToCivil (n : Nat) :
    civilToDay (dayToCivil n).y (dayToCivil n).m (dayToCivil n).d = n ∧
    1 ≤ (dayToCivil n).d ∧ (dayToCivil n).d ≤ 31 ∧
    1 ≤ (dayToCivil n).m ∧ (dayToCivil n).m ≤ 12 := by
  unfold dayToCivil
  simp only []
  generalize hera : n / 146097 = era
  generalize hdoe : n % 146097 = doe
  generalize hcen : min 3 (doe / 36524) = cen
  generalize hdoc : doe - 36524 * cen = doc
  generalize hquad : doc / 1461 = quad
  generalize hdoq : doc % 1461 = doq
  generalize hyq : min 3 (doq / 365) = yq
  generalize hyoe : 100 * cen + 4 * quad + yq = yoe
  generalize hdoy : doq - 365 * yq = doy
  generalize hmp : (5 * doy + 2) / 153 = mp
  generalize hdd : doy - (153 * mp + 2) / 5 + 1 = dd
  have hdoe96 : doe ≤ 146096 := by omega
  have hp := pieces_of_doe doe cen doc quad doq yq yoe doy hdoe96
    hcen.symm hdoc.symm hquad.symm hdoq.symm hyq.symm hyoe.symm hdoy.symm
  have hm := month_of_doy doy mp dd hp.2.1 hmp.symm hdd.symm
  have hsplit := era_split era yoe hp.1
  have hn : n = 146097 * era + doe := by omega
  clear hcen hdoc hquad hdoq hyq hdoy hmp hdd hera hdoe
  unfold civilToDay
  simp only []
  split_ifs with h1 h2
  · omega
  · omega
  · simp only [Nat.add_sub_cancel]
    rw [Nat.sub_add_cancel (by omega : 9 ≤ mp)]
    omega
  · omega

/-- The civil-from-days algorithm applied to a day number given by the
days-from-civil formula over a shifted year and month recovers the shifted
components. -/
theorem dayToCivil_formula (ys ms d n : Nat) (hms : ms ≤ 11) (hd1 : 1 ≤ d)
    (hn : n = 365 * ys + ys / 4 - ys / 100 + ys / 400 + (153 * ms + 2) / 5 + (d - 1))
    (hnext : (153 * ms + 2) / 5 + (d - 1) < (153 * (ms + 1) + 2) / 5)
    (hub : (153 * ms + 2) / 5 + (d - 1) ≤ 365)
    (hleap : (153 * ms + 2) / 5 + (d - 1) = 365 →
      (ys % 400 % 4 = 3 ∧ ys % 400 % 100 ≠ 99) ∨ ys % 400 = 399) :
    dayToCivil n =
      ⟨if ms < 10 then ys else ys + 1, if ms < 10 then ms + 3 else ms - 9, d⟩ := by
  obtain ⟨era, yoe, hsplit, hyoe⟩ : ∃ era yoe, ys = era * 400 + yoe ∧ yoe ≤ 399 :=
    ⟨ys / 400, ys % 400, by omega, by omega⟩
  obtain ⟨doy, hdoy⟩ : ∃ doy, (153 * ms + 2) / 5 + (d - 1) = doy := ⟨_, rfl⟩
  rw [hdoy] at hnext hub hleap
  have hyoemod : ys % 400 = yoe := by omega
  rw [hyoemod] at hleap
  have hn2 : n = 146097 * era + (365 * yoe + yoe / 4 - yoe / 100 + doy) := by omega
  have hr := recover_yoe yoe doy (365 * yoe + yoe / 4 - yoe / 100 + doy) hyoe hub hleap rfl
  have hmonth := doy_of_month ms d doy hms hd1 hdoy.symm hnext hub
  rw [hn2]
  unfold dayToCivil
  simp only [Civil.mk.injEq]
  have hdiv : (146097 * era + (365 * yoe + yoe / 4 - yoe / 100 + doy)) / 146097 = era := by
    omega
  have hmod : (146097 * era + (365 * yoe + yoe / 4 - yoe / 100 + doy)) % 146097 =
      365 * yoe + yoe / 4 - yoe / 100 + doy := by omega
  rw [hdiv, hmod, hr.2.1, hr.2.2, hmonth.1]
  split_ifs
  · exact ⟨by omega, rfl, hmonth.2⟩
  · exact ⟨by omega, rfl, hmonth.2⟩

/-- Right inverse: a valid civil date is recovered from its day number. -/
theorem dayToCivil_civilToDay (c : Civil)
    (h : 1 ≤ c.y ∧ 1 ≤ c.m ∧ c.m ≤ 12 ∧ 1 ≤ c.d ∧ c.d ≤ daysInMonth c.y c.m) :
    dayToCivil (civilToDay c.y c.m c.d) = c := by
  obtain ⟨y, m, d⟩ := c
  obtain ⟨hy1, hm1, hm2, hd1, hd2⟩ := h
  replace hy1 : 1 ≤ y := hy1
  replace hm1 : 1 ≤ m := hm1
  replace hm2 : m ≤ 12 := hm2
  replace hd1 : 1 ≤ d := hd1
  replace hd2 : d ≤ daysInMonth y m := hd2
  simp only [daysInMonth] at hd2
  rcases le_or_lt m 2 with hm2' | hm2'
  · -- January or February: shifted year is y - 1, shifted month is m + 9
    rcases (by omega : m = 1 ∨ m = 2) with rfl | rfl
    · -- January
      norm_num at hd2
      have harg : civilToDay y 1 d =
          365 * (y - 1) + (y - 1) / 4 - (y - 1) / 100 + (y - 1) / 400 +
            (153 * 10 + 2) / 5 + (d - 1) := by
        unfold civilToDay
        norm_num
      rw [harg]
      have hform := dayToCivil_formula (y - 1) 10 d _
        (by omega) hd1 rfl (by omega) (by omega) (by intro h365; omega)
      rw [hform]
      rw [if_neg (by omega : ¬ (10 : Nat) < 10), if_neg (by omega : ¬ (10 : Nat) < 10)]
      have e1 : y - 1 + 1 = y := by omega
      rw [e1]
    · -- February
      norm_num at hd2
      have harg : civilToDay y 2 d =
          365 * (y - 1) + (y - 1) / 4 - (y - 1) / 100 + (y - 1) / 400 +
            (153 * 11 + 2) / 5 + (d - 1) := by
        unfold civilToDay
        norm_num
      rw [harg]
      have hleapc : isLeap y = true → (y % 4 = 0 ∧ y % 100 ≠ 0) ∨ y % 400 = 0 := by
        simp [isLeap]
      have hd29 : d ≤ 29 := by
        cases hiy : isLeap y <;> simp [hiy] at hd2 <;> omega
      have hform := dayToCivil_formula (y - 1) 11 d _
        (by omega) hd1 rfl (by omega) (by omega)
        (by
          intro h365
          have hde : d = 29 := by omega
          have hiy : isLeap y = true := by
            cases hiy : isLeap y
            · exfalso
              simp [hiy] at hd2
              omega
            · rfl
          have hly := hleapc hiy
          omega)
      rw [hform]
      rw [if_neg (by omega : ¬ (11 : Nat) < 10), if_neg (by omega : ¬ (11 : Nat) < 10)]
      have e1 : y - 1 + 1 = y := by omega
      rw [e1]
  · -- March through December: shifted year is y, shifted month is m - 3
    have harg : civilToDay y m d =
        365 * y + y / 4 - y / 100 + y / 400 + (153 * (m - 3) + 2) / 5 + (d - 1) := by
      unfold civilToDay
      simp only []
      split_ifs <;> omega
    rw [harg]
    have hdm : d ≤ 31 ∧ ((m = 4 ∨ m = 6 ∨ m = 9 ∨ m = 11) → d ≤ 30) := by
      split_ifs at hd2 <;> omega
    have hform := dayToCivil_formula y (m - 3) d _
      (by omega) hd1 rfl
      (by
        rcases hdm with ⟨h31, h30⟩
        rcases (by omega :
            m = 3 ∨ m = 4 ∨ m = 5 ∨ m = 6 ∨ m = 7 ∨ m = 8 ∨ m = 9 ∨ m = 10 ∨ m = 11 ∨ m = 12)
          with rfl | rfl | rfl | rfl | rfl | rfl | rfl | rfl | rfl | rfl <;>
          simp_all <;> omega)
      (by
        rcases (by omega :
            m = 3 ∨ m = 4 ∨ m = 5 ∨ m = 6 ∨ m = 7 ∨ m = 8 ∨ m = 9 ∨ m = 10 ∨ m = 11 ∨ m = 12)
          with rfl | rfl | rfl | rfl | rfl | rfl | rfl | rfl | rfl | rfl <;>
          omega)
      (by
        intro h365
        rcases (by omega :
            m = 3 ∨ m = 4 ∨ m = 5 ∨ m = 6 ∨ m = 7 ∨ m = 8 ∨ m = 9 ∨ m = 10 ∨ m = 11 ∨ m = 12)
          with rfl | rfl | rfl | rfl | rfl | rfl | rfl | rfl | rfl | rfl <;>
          omega)
    rw [hform]
    rw [if_pos (by omega : m - 3 < 10), if_pos (by omega : m - 3 < 10)]
    have e2 : m - 3 + 3 = m := by omega
    rw [e2]

/-- The day-number formula is affine in the day-of-month component. -/
theorem civilToDay_day_shift (y m d : Nat) (hd : 1 ≤ d) :
    civilToDay y m d = civilToDay y m 1 + (d - 1) := by
  unfold civilToDay
  simp only []
  split_ifs <;> omega

/-- Day numbers of dates in year 1 or later are at least 306. -/
theorem civilToDay_lower (y m d : Nat) (hy : 1 ≤ y) (hm : 1 ≤ m) :
    306 ≤ civilToDay y m d := by
  unfold civilToDay
  simp only []
  split_ifs <;> omega

/-- The setDate idiom date.setDate(date.getDate() + i) moves a timestamp by
exactly i days, in every fixed-offset timezone with the local day
nonnegative. -/
theorem jsSetDate_step (tz t i : Int) (h : 0 ≤ t + tz) :
    jsSetDate tz t ((jsGetDate tz t : Int) + i) = t + i * 1440 := by
  unfold jsSetDate jsGetDate jsLocalCivil jsLocalDay
  have hL : 0 ≤ (t + tz) / 1440 := Int.ediv_nonneg h (by norm_num)
  have htn : ((((t + tz) / 1440).toNat : Int)) = (t + tz) / 1440 := Int.toNat_of_nonneg hL
  have hK := civilToDay_dayToCivil ((t + tz) / 1440).toNat
  have hshift := civilToDay_day_shift (dayToCivil ((t + tz) / 1440).toNat).y
    (dayToCivil ((t + tz) / 1440).toNat).m (dayToCivil ((t + tz) / 1440).toNat).d hK.2.1
  have hde := Int.ediv_add_emod (t + tz) 1440
  omega

/-- Rendering a whole-day timestamp gives the string of its day number. -/
theorem toISODateStr_mul (D : Int) : toISODateStr (D * 1440) = dayToStr D.toNat := by
  unfold toISODateStr
  rw [Int.mul_ediv_cancel _ (by norm_num)]

/-- The week branch returns the seven consecutive dates from the start
date, in every fixed-offset timezone. -/
theorem generateTaskDates_week (tz : Int) (s : Civil) (e : Option Civil)
    (hy : 1 ≤ s.y) (hm : 1 ≤ s.m) (htz : -1440 < tz) :
    generateTaskDates tz "week" s e = consecutiveDates s 7 := by
  unfold generateTaskDates consecutiveDates utcMidnight
  rw [if_neg (by decide), if_pos rfl]
  apply List.map_congr_left
  intro i hi
  have hD : 306 ≤ civilToDay s.y s.m s.d := civilToDay_lower s.y s.m s.d hy hm
  have hpos : 0 ≤ (civilToDay s.y s.m s.d : Int) * 1440 + tz := by
    have h306 : (306 : Int) ≤ (civilToDay s.y s.m s.d : Int) := by exact_mod_cast hD
    omega
  rw [jsSetDate_step tz _ (i : Int) hpos]
  have hc : (civilToDay s.y s.m s.d : Int) * 1440 + (i : Int) * 1440 =
      ((civilToDay s.y s.m s.d + i : Nat) : Int) * 1440 := by
    push_cast
    ring
  rw [hc, toISODateStr_mul]
  congr 1

/-- The custom loop returns the empty list once current exceeds the end. -/
theorem customGo_nil (tz endT : Int) (fuel : Nat) (cur : Int) (h : endT < cur) :
    customGo tz endT fuel cur = [] := by
  cases fuel with
  | zero => rfl
  | succ f =>
    unfold customGo
    rw [if_neg (by omega)]

/-- Mapping over a nonempty range peels off the first element. -/
theorem map_range_succ_shift (f : Nat → String) (n : Nat) :
    (List.range (n + 1)).map f = f 0 :: (List.range n).map (fun i => f (i + 1)) := by
  rw [List.range_succ_eq_map, List.map_cons, List.map_map]
  rfl

/-- With enough fuel, the custom loop started at day C with end day E at or
after C enumerates exactly the days C through E. -/
theorem customGo_spec (tz : Int) (E fuel C : Nat) (hC : 1 ≤ C) (htz : -1440 < tz)
    (hCE : C ≤ E) (hfuel : E + 1 ≤ fuel + C) :
    customGo tz ((E : Int) * 1440) fuel ((C : Int) * 1440) =
      (List.range (E - C + 1)).map (fun i => dayToStr (C + i)) := by
  induction fuel generalizing C with
  | zero =>
    exfalso
    omega
  | succ f ih =>
    unfold customGo
    rw [if_pos (by omega : ((C : Nat) : Int) * 1440 ≤ ((E : Nat) : Int) * 1440)]
    have hpos : 0 ≤ (C : Int) * 1440 + tz := by omega
    rw [jsSetDate_step tz _ 1 hpos]
    have hstep : (C : Int) * 1440 + 1 * 1440 = ((C + 1 : Nat) : Int) * 1440 := by
      push_cast
      ring
    rw [hstep, toISODateStr_mul, Int.toNat_natCast]
    rcases Nat.eq_or_lt_of_le hCE with rfl | hlt
    · rw [customGo_nil _ _ _ _ (by push_cast; omega)]
      have hone : C - C + 1 = 1 := by omega
      rw [hone]
      simp [List.range_succ]
    · rw [ih (C + 1) (by omega) (by omega) (by omega)]
      have hcount : E - C + 1 = (E - (C + 1) + 1) + 1 := by omega
      conv_rhs => rw [hcount, map_range_succ_shift]
      simp only [Nat.add_zero]
      congr 1
      apply List.map_congr_left
      intro i hi
      congr 1
      omega

/-- The custom branch with end at or after start enumerates exactly the
days from start through end, in every fixed-offset timezone. -/
theorem generateTaskDates_custom (tz : Int) (s e : Civil)
    (hys : 1 ≤ s.y) (hms : 1 ≤ s.m) (htz : -1440 < tz)
    (hse : civilToDay s.y s.m s.d ≤ civilToDay e.y e.m e.d) :
    generateTaskDates tz "custom" s (some e) =
      consecutiveDates s (civilToDay e.y e.m e.d - civilToDay s.y s.m s.d + 1) := by
  unfold generateTaskDates consecutiveDates utcMidnight
  rw [if_neg (by decide), if_neg (by decide), if_neg (by decide), if_pos rfl]
  simp only []
  have h1 : (civilToDay e.y e.m e.d : Int) * 1440 - (civilToDay s.y s.m s.d : Int) * 1440 =
      ((civilToDay e.y e.m e.d - civilToDay s.y s.m s.d : Nat) : Int) * 1440 := by
    rw [Nat.cast_sub hse]
    ring
  rw [h1, Int.mul_ediv_cancel _ (by norm_num), Int.toNat_natCast]
  exact customGo_spec tz (civilToDay e.y e.m e.d)
    ((civilToDay e.y e.m e.d - civilToDay s.y s.m s.d) + 2) (civilToDay s.y s.m s.d)
    (by have := civilToDay_lower s.y s.m s.d hys hms; omega) htz hse (by omega)

/-- The day number of a valid civil date renders back to its string. -/
theorem dayToStr_self (c : Civil) (h : validCivil c) :
    dayToStr (civilToDay c.y c.m c.d) = civilToStr c := by
  unfold dayToStr
  rw [dayToCivil_civilToDay c ⟨h.1, h.2.2.1, h.2.2.2.1, h.2.2.2.2.1, h.2.2.2.2.2⟩]

/-- The canonical consecutive enumeration starts with the start date. -/
theorem consecutiveDates_head (s : Civil) (n : Nat) (h : validCivil s) :
    (consecutiveDates s (n + 1)).head? = some (civilToStr s) := by
  unfold consecutiveDates
  rw [map_range_succ_shift]
  simp only [List.head?_cons, Nat.add_zero]
  rw [dayToStr_self s h]

namespace TaskTracker

/-- Reading back an encoded array of strings is the identity. -/
theorem strsFromJs_map (l : List String) : strsFromJs (l.map JsValue.str) = some l := by
  induction l with
  | nil => rfl
  | cons a l ih => simp [strsFromJs, ih]

/-- Reading back an encoded task record recovers every field. -/
theorem jsToTask_taskToJs (t : Task) : jsToTask (taskToJs t) = some t := by
  obtain ⟨i, nm, cat, per, sd, ed, st, ca, ds⟩ := t
  simp only [taskToJs, jsToTask]
  rw [if_pos (by simp), strsFromJs_map]
  rfl

/-- Reading back an encoded task list recovers every record in order. -/
theorem tasksFromJs_map (ts : List Task) : tasksFromJs (ts.map taskToJs) = some ts := by
  induction ts with
  | nil => rfl
  | cons t ts ih => simp [tasksFromJs, jsToTask_taskToJs, ih]

/-- A list of tasks whose statuses all lie in the three-value enumeration is
partitioned exactly by the three status filters. -/
theorem statusFilter_partition (l : List Task)
    (h : ∀ t ∈ l, t.status = "Assigned" ∨ t.status = "In-progress" ∨ t.status = "Completed") :
    (l.filter (fun t => t.status == "Assigned")).length +
      (l.filter (fun t => t.status == "In-progress")).length +
      (l.filter (fun t => t.status == "Completed")).length = l.length := by
  induction l with
  | nil => rfl
  | cons a l ih =>
    have ha := h a (List.mem_cons_self a l)
    have hl := ih (fun t ht => h t (List.mem_cons_of_mem a ht))
    rcases ha with h1 | h1 | h1 <;>
      simp [List.filter_cons, h1] <;> omega

end TaskTracker

/-- C1: the claim fails on the code. The spec describes the month expansion
as the dates from the day-of-month of startDate through the last day of
that same month, and its scenario fixes startDate 2026-02-20 to the nine
dates 2026-02-20 through 2026-02-28. The code produces that sequence only
in a UTC runtime (offset 0): in a UTC+1 runtime (offset +60 minutes) the
same call returns 2026-02-19 through 2026-02-27, because the month branch
builds local-midnight Dates with new Date(year, month, day) and renders
them with the UTC-based toISOString, shifting every emitted date back by
one day under any positive offset (and adding a leading extra day under
negative offsets). -/
theorem month_expansion_timezone_dependent :
    generateTaskDates 0 "month" ⟨2026, 2, 20⟩ none =
      ["2026-02-20", "2026-02-21", "2026-02-22", "2026-02-23", "2026-02-24",
       "2026-02-25", "2026-02-26", "2026-02-27", "2026-02-28"] ∧
    generateTaskDates 60 "month" ⟨2026, 2, 20⟩ none =
      ["2026-02-19", "2026-02-20", "2026-02-21", "2026-02-22", "2026-02-23",
       "2026-02-24", "2026-02-25", "2026-02-26", "2026-02-27"] ∧
    generateTaskDates (-300) "month" ⟨2026, 2, 20⟩ none =
      ["2026-02-19", "2026-02-20", "2026-02-21", "2026-02-22", "2026-02-23",
       "2026-02-24", "2026-02-25", "2026-02-26", "2026-02-27", "2026-02-28"] :=
  ⟨by decide, by decide, by decide⟩

/-- C2: the claim fails on the code. Two runs of the month expansion under
different timezone offsets of the runtime produce different date sequences
for the same input, so the output is not insensitive to the timezone
component of the environment; on the same inputs the day, week and custom
periods do produce identical sequences under both offsets. -/
theorem generateTaskDates_not_timezone_insensitive :
    generateTaskDates 0 "month" ⟨2026, 2, 20⟩ none ≠
      generateTaskDates 60 "month" ⟨2026, 2, 20⟩ none ∧
    generateTaskDates 60 "day" ⟨2026, 2, 15⟩ none =
      generateTaskDates 0 "day" ⟨2026, 2, 15⟩ none ∧
    generateTaskDates 60 "week" ⟨2026, 2, 10⟩ none =
      generateTaskDates 0 "week" ⟨2026, 2, 10⟩ none ∧
    generateTaskDates 60 "custom" ⟨2026, 2, 10⟩ (some ⟨2026, 2, 12⟩) =
      generateTaskDates 0 "custom" ⟨2026, 2, 10⟩ (some ⟨2026, 2, 12⟩) :=
  ⟨by decide, by decide, by decide, by decide⟩

/-- C3: for a valid custom range with endDate at or after startDate, in any
fixed-offset runtime, the custom expansion returns exactly the canonical
contiguous ascending enumeration of the calendar dates from startDate
through endDate: its length is the day difference plus one, its first entry
is the startDate string, and the last enumerated day renders to the endDate
string. -/
theorem generateTaskDates_custom_inclusive_range (tz : Int) (s e : Civil)
    (hs : validCivil s) (he : validCivil e) (htz : -1440 < tz ∧ tz < 1440)
    (hse : civilToDay s.y s.m s.d ≤ civilToDay e.y e.m e.d) :
    generateTaskDates tz "custom" s (some e) =
      consecutiveDates s (civilToDay e.y e.m e.d - civilToDay s.y s.m s.d + 1) ∧
    (generateTaskDates tz "custom" s (some e)).length =
      civilToDay e.y e.m e.d - civilToDay s.y s.m s.d + 1 ∧
    (generateTaskDates tz "custom" s (some e)).head? = some (civilToStr s) ∧
    dayToStr (civilToDay e.y e.m e.d) = civilToStr e := by
  have hw := generateTaskDates_custom tz s e hs.1 hs.2.2.1 htz.1 hse
  refine ⟨hw, ?_, ?_, dayToStr_self e he⟩
  · rw [hw]
    unfold consecutiveDates
    rw [List.length_map, List.length_range]
  · rw [hw]
    exact consecutiveDates_head s _ hs

/-- Witness for C3: the concrete range 2026-02-27 through 2026-03-02, in a
UTC+2 runtime, crossing a month boundary. -/
theorem generateTaskDates_custom_inclusive_range_witness :
    generateTaskDates 120 "custom" ⟨2026, 2, 27⟩ (some ⟨2026, 3, 2⟩) =
      ["2026-02-27", "2026-02-28", "2026-03-01", "2026-03-02"] := by
  have h := (generateTaskDates_custom_inclusive_range 120 ⟨2026, 2, 27⟩ ⟨2026, 3, 2⟩
    (by decide) (by decide) (by decide) (by decide)).1
  exact h.trans (by decide)

/-- C4: for every valid startDate and any fixed-offset runtime, the week
expansion returns exactly the seven consecutive calendar dates starting at
startDate inclusive, irrespective of calendar week boundaries. -/
theorem generateTaskDates_week_seven_consecutive (tz : Int) (s : Civil) (e : Option Civil)
    (hs : validCivil s) (htz : -1440 < tz ∧ tz < 1440) :
    generateTaskDates tz "week" s e = consecutiveDates s 7 ∧
    (generateTaskDates tz "week" s e).length = 7 ∧
    (generateTaskDates tz "week" s e).head? = some (civilToStr s) := by
  have hw := generateTaskDates_week tz s e hs.1 hs.2.2.1 htz.1
  refine ⟨hw, ?_, ?_⟩
  · rw [hw]
    unfold consecutiveDates
    rw [List.length_map, List.length_range]
  · rw [hw]
    rw [show (7 : Nat) = 6 + 1 from rfl]
    exact consecutiveDates_head s 6 hs

/-- Witness for C4: the scenario startDate 2026-02-10, evaluated in a
UTC-8 runtime, yields the seven dates 2026-02-10 through 2026-02-16. -/
theorem generateTaskDates_week_seven_consecutive_witness :
    generateTaskDates (-480) "week" ⟨2026, 2, 10⟩ none =
      ["2026-02-10", "2026-02-11", "2026-02-12", "2026-02-13", "2026-02-14",
       "2026-02-15", "2026-02-16"] := by
  have h := (generateTaskDates_week_seven_consecutive (-480) ⟨2026, 2, 10⟩ none
    (by decide) (by decide)).1
  exact h.trans (by decide)

namespace TaskTracker

/-- C5: a create-task submission with period custom whose end date is
strictly before its start date is rejected: a validation error is surfaced
and the returned state is the input state unchanged, so no task is added to
the collection and the persisted store is not written, and no date
expansion result is stored anywhere. -/
theorem handleCreateTask_rejects_invalid_custom_range (tz now : Int) (nowIso : String)
    (form : FormInput) (tr : Tracker) (s e : Civil)
    (hper : form.period = "custom") (hsd : form.startDate = some s) (hed : form.endDate = some e)
    (hlt : civilToDay e.y e.m e.d < civilToDay s.y s.m s.d) :
    (handleCreateTask tz now nowIso form tr).1 = tr ∧
    ∃ msg, (handleCreateTask tz now nowIso form tr).2 = some msg := by
  unfold handleCreateTask
  simp only []
  split_ifs with h1 h2 h3
  · exact ⟨rfl, _, rfl⟩
  · exact ⟨rfl, _, rfl⟩
  · exact ⟨rfl, _, rfl⟩
  · exfalso
    apply h3
    refine ⟨hper, ?_⟩
    rw [hed, hsd]
    unfold dateLtB
    simp only [decide_eq_true_eq]
    unfold utcMidnight
    have hcast : (civilToDay e.y e.m e.d : Int) < (civilToDay s.y s.m s.d : Int) := by
      exact_mod_cast hlt
    omega

/-- Witness for C5: the scenario submission with startDate 2026-02-10 and
endDate 2026-02-08 is rejected with the state unchanged. -/
theorem handleCreateTask_rejects_invalid_custom_range_witness :
    (handleCreateTask 0 0 ""
        ⟨"Walk the dog", "Chores", "custom", some ⟨2026, 2, 10⟩, some ⟨2026, 2, 8⟩⟩
        ⟨[], none⟩).1 = (⟨[], none⟩ : Tracker) ∧
    ∃ msg, (handleCreateTask 0 0 ""
        ⟨"Walk the dog", "Chores", "custom", some ⟨2026, 2, 10⟩, some ⟨2026, 2, 8⟩⟩
        ⟨[], none⟩).2 = some msg :=
  handleCreateTask_rejects_invalid_custom_range 0 0 "" _ _ ⟨2026, 2, 10⟩ ⟨2026, 2, 8⟩
    rfl rfl rfl (by decide)

/-- C6: a task is in the visible subset for a reference date exactly when
its persisted dates sequence contains the reference-date string by exact
equality; membership in the enumerated list, not a range test. -/
theorem tasksForDate_mem_iff (tasks : List Task) (refDate : String) (t : Task) :
    t ∈ tasksForDate tasks refDate ↔ t ∈ tasks ∧ refDate ∈ t.dates := by
  simp [tasksForDate, List.mem_filter, List.contains, List.elem_iff]

/-- C7: for every reference date and every task collection whose statuses
lie in the three-value enumeration of the data model, the three per-status
counts sum exactly to the visible total. -/
theorem updateStatistics_counts_sum (tasks : List Task) (refDate : String)
    (h : ∀ t ∈ tasks,
      t.status = "Assigned" ∨ t.status = "In-progress" ∨ t.status = "Completed") :
    (updateStatistics tasks refDate).assigned + (updateStatistics tasks refDate).inProgress +
      (updateStatistics tasks refDate).completed = (updateStatistics tasks refDate).total := by
  unfold updateStatistics
  simp only []
  exact statusFilter_partition _ (fun t ht => h t (List.mem_filter.mp ht).1)

/-- Witness for C7 on a concrete three-task collection with one task per
status, two of them visible on the reference date. -/
theorem updateStatistics_counts_sum_witness :
    (updateStatistics
        [⟨1, "a", "Chores", "day", "2026-02-15", "2026-02-15", "Assigned", "t1",
          ["2026-02-15"]⟩,
         ⟨2, "b", "Study", "day", "2026-02-15", "2026-02-15", "In-progress", "t2",
          ["2026-02-15"]⟩,
         ⟨3, "c", "Other", "day", "2026-02-16", "2026-02-16", "Completed", "t3",
          ["2026-02-16"]⟩] "2026-02-15").assigned +
      (updateStatistics
        [⟨1, "a", "Chores", "day", "2026-02-15", "2026-02-15", "Assigned", "t1",
          ["2026-02-15"]⟩,
         ⟨2, "b", "Study", "day", "2026-02-15", "2026-02-15", "In-progress", "t2",
          ["2026-02-15"]⟩,
         ⟨3, "c", "Other", "day", "2026-02-16", "2026-02-16", "Completed", "t3",
          ["2026-02-16"]⟩] "2026-02-15").inProgress +
      (updateStatistics
        [⟨1, "a", "Chores", "day", "2026-02-15", "2026-02-15", "Assigned", "t1",
          ["2026-02-15"]⟩,
         ⟨2, "b", "Study", "day", "2026-02-15", "2026-02-15", "In-progress", "t2",
          ["2026-02-15"]⟩,
         ⟨3, "c", "Other", "day", "2026-02-16", "2026-02-16", "Completed", "t3",
          ["2026-02-16"]⟩] "2026-02-15").completed =
      (updateStatistics
        [⟨1, "a", "Chores", "day", "2026-02-15", "2026-02-15", "Assigned", "t1",
          ["2026-02-15"]⟩,
         ⟨2, "b", "Study", "day", "2026-02-15", "2026-02-15", "In-progress", "t2",
          ["2026-02-15"]⟩,
         ⟨3, "c", "Other", "day", "2026-02-16", "2026-02-16", "Completed", "t3",
          ["2026-02-16"]⟩] "2026-02-15").total :=
  updateStatistics_counts_sum _ _ (by decide)

/-- C8: saving any task collection and loading it back yields the stored
serialisation of that collection, and decoding it recovers the collection
identically: same length, same order, every field of every record. -/
theorem saveTasks_loadTasks_roundtrip (tasks : List Task) (store : Option StoreContent) :
    loadTasks (saveTasks tasks store) = JsValue.arr (tasks.map taskToJs) ∧
    jsToTasks (loadTasks (saveTasks tasks store)) = some tasks := by
  refine ⟨rfl, ?_⟩
  show jsToTasks (JsValue.arr (tasks.map taskToJs)) = some tasks
  simp only [jsToTasks]
  exact tasksFromJs_map tasks

/-- C9: loading never propagates an error: an absent store yields the empty
collection, any store on which the parse fails yields the empty collection,
and in particular a malformed store yields the empty collection. -/
theorem loadTasks_tolerant_read :
    loadTasks none = JsValue.arr [] ∧
    (∀ st e, loadTasksE st = Except.error e → loadTasks st = JsValue.arr []) ∧
    loadTasks (some (StoreContent.malformed "not valid json")) = JsValue.arr [] := by
  refine ⟨rfl, ?_, rfl⟩
  intro st e h
  unfold loadTasks
  rw [h]

/-- Witness for C9 at a concrete malformed store. -/
theorem loadTasks_tolerant_read_witness :
    loadTasks (some (StoreContent.malformed "oops")) = JsValue.arr [] :=
  loadTasks_tolerant_read.2.1 (some (StoreContent.malformed "oops"))
    ("SyntaxError: unexpected token in JSON: " ++ "oops") rfl

/-- C10: whenever handleCreateTask succeeds (no validation error), the new
state is the old collection with exactly one task appended, and that task
has status Assigned. -/
theorem handleCreateTask_status_assigned (tz now : Int) (nowIso : String)
    (form : FormInput) (tr : Tracker)
    (h : (handleCreateTask tz now nowIso form tr).2 = none) :
    ∃ task, (handleCreateTask tz now nowIso form tr).1.tasks = tr.tasks ++ [task] ∧
      task.status = "Assigned" := by
  unfold handleCreateTask at h ⊢
  simp only [] at h ⊢
  split_ifs at h ⊢ with h1 h2 h3 <;>
    first
      | exact ⟨_, rfl, rfl⟩
      | exact absurd h (by simp)

/-- Witness for C10: a successful single-day submission creates one task
whose status is Assigned. -/
theorem handleCreateTask_status_assigned_witness :
    ∃ task, (handleCreateTask 0 1 "2026-02-15T08:00:00.000Z"
        ⟨"Walk the dog", "Chores", "day", some ⟨2026, 2, 15⟩, none⟩
        (⟨[], none⟩ : Tracker)).1.tasks = (⟨[], none⟩ : Tracker).tasks ++ [task] ∧
      task.status = "Assigned" :=
  handleCreateTask_status_assigned 0 1 "2026-02-15T08:00:00.000Z" _ _ (by decide)

end TaskTracker
